import Mathlib

/-!
Verification development for the Vik in-page navigation library.

The definitions below are a shallow embedding of the most recent revision
of the single-file library (vik.js). DOM nodes are modelled by a simple
tree type, the vik singleton state by an explicit record, and the
browser-facing effects (history pushes, fetches, prompts, logs) by fields
of explicit result records. Every function mirrors the control flow of
the corresponding JavaScript function; comments quote the construct of
the source that each branch embeds.
-/

namespace Vik

/-! ## DOM model -/

/-- A DOM node: an element with a tag name, an attribute list and child
nodes, or a text node. -/
inductive Html where
  | elem (tag : String) (attrs : List (String × String)) (children : List Html)
  | text (s : String)
deriving Inhabited

/-- Tag name of a node; text nodes report an empty tag. -/
def Html.tagOf : Html → String
  | .elem t _ _ => t
  | .text _ => ""

/-- Child nodes of a node. -/
def Html.childrenOf : Html → List Html
  | .elem _ _ cs => cs
  | .text _ => []

/-- Replace the children of a node, keeping tag and attributes.
This models clearing with innerHTML assignment followed by appendChild. -/
def Html.withChildren : Html → List Html → Html
  | .elem t a _, cs => .elem t a cs
  | .text s, _ => .text s

/-- Attribute lookup on an element (getAttribute); none when absent. -/
def Html.attrOf : Html → String → Option String
  | .elem _ attrs _, n => (attrs.find? (fun p => p.1 = n)).map (fun p => p.2)
  | .text _, _ => none

/-- Lowercasing of a string (toLowerCase), written over the character
list so that it evaluates inside the kernel. -/
def strToLower (s : String) : String := String.mk (s.data.map Char.toLower)

/-- Whether a string starts with the hash character. -/
def startsWithHash (s : String) : Bool :=
  match s.data with
  | c :: _ => c = '#'
  | [] => false

/-- The string without its first character. -/
def dropFirst (s : String) : String := String.mk (s.data.drop 1)

/-- Minimal CSS matching used by the selectors of the examples: a selector
starting with a hash matches on the id attribute, otherwise it matches the
tag name. Text nodes match nothing. -/
def matchesSel (sel : String) (h : Html) : Bool :=
  match h with
  | .text _ => false
  | .elem tag _ _ =>
    if startsWithHash sel then h.attrOf "id" = some (dropFirst sel)
    else tag = sel

mutual
/-- First node of the subtree rooted at a node (the node itself included)
matching the selector, in document pre-order (querySelector over a tree). -/
def qselNode (sel : String) : Html → Option Html
  | .text s => if matchesSel sel (.text s) then some (.text s) else none
  | .elem t a cs =>
    if matchesSel sel (.elem t a cs) then some (.elem t a cs)
    else qselKids sel cs

/-- First match of the selector in a forest, in document pre-order. -/
def qselKids (sel : String) : List Html → Option Html
  | [] => none
  | h :: rest =>
    match qselNode sel h with
    | some r => some r
    | none => qselKids sel rest
end

/-- content.querySelector(sel): searches the descendants of the node. -/
def Html.querySelector (h : Html) (sel : String) : Option Html :=
  qselKids sel h.childrenOf

mutual
/-- All matches of the selector in the subtree rooted at a node,
document pre-order (querySelectorAll over a tree). -/
def qselAllNode (sel : String) : Html → List Html
  | .text s => if matchesSel sel (.text s) then [.text s] else []
  | .elem t a cs =>
    (if matchesSel sel (.elem t a cs) then [Html.elem t a cs] else []) ++
      qselAllKids sel cs

/-- All matches of the selector in a forest, document pre-order. -/
def qselAllKids (sel : String) : List Html → List Html
  | [] => []
  | h :: rest => qselAllNode sel h ++ qselAllKids sel rest
end

/-- srcNode.querySelectorAll(sel): all matching descendants. -/
def Html.querySelectorAll (h : Html) (sel : String) : List Html :=
  qselAllKids sel h.childrenOf

/-! ## Merge strategies (loadExec fetch handler, strategy-based processing)

Embeds the block
  if (params.strategy == "copy") { targetNode.innerHTML = "";
    while (srcNode.hasChildNodes()) targetNode.appendChild(srcNode.firstChild); }
  else if (params.strategy == "fill") { targetNode.innerHTML = "";
    targetNode.appendChild(srcNode); }
  else { targetNode.replaceWith(srcNode); }
The result is the list of nodes that stand where the target node stood in
its parent. -/

/-- The while loop of the copy strategy: repeatedly remove the first child
of the source and append it to the accumulated target children. -/
def moveChildren : List Html → List Html → List Html
  | [], acc => acc
  | c :: rest, acc => moveChildren rest (acc ++ [c])

/-- Strategy dispatch of the fetch handler. An unknown strategy falls into
the else branch, which is replace. -/
def applyStrategy (strategy : String) (srcNode targetNode : Html) : List Html :=
  if strategy = "copy" then
    -- copy: clear the target, then move each child of the source into it
    [targetNode.withChildren (moveChildren srcNode.childrenOf [])]
  else if strategy = "fill" then
    -- fill: clear the target, then append the source node itself
    [targetNode.withChildren [srcNode]]
  else
    -- replace: the target node is substituted by the source node
    [srcNode]

/-- The region of the page holding the target: nodes before it, the merge
result, nodes after it. -/
def mergeRegion (strategy : String) (srcNode targetNode : Html)
    (before after : List Html) : List Html :=
  before ++ applyStrategy strategy srcNode targetNode ++ after

theorem moveChildren_eq (l acc : List Html) :
    moveChildren l acc = acc ++ l := by
  induction l generalizing acc with
  | nil => simp [moveChildren]
  | cons c rest ih => simp [moveChildren, ih]

/-- The concrete fragment of the specification example. -/
def divX : Html := .elem "div" [("id", "x")] [.text "A"]

/-- The concrete target of the specification example. -/
def divT : Html := .elem "div" [("id", "t")] [.text "OLD"]

/-- C1: for a structured merge whose source was found, replace removes the
target from the tree and puts the source in its place, fill clears the
target and makes the source its sole child, and copy clears the target and
moves each child of the source into it in order; on the example fragment
div#x with text A merged into target div#t with text OLD this yields the
three enumerated results. -/
theorem merge_strategies_obey_selection
    (src tgt : Html) (before after : List Html) :
    (mergeRegion "replace" src tgt before after = before ++ [src] ++ after) ∧
    (mergeRegion "fill" src tgt before after
      = before ++ [tgt.withChildren [src]] ++ after) ∧
    (mergeRegion "copy" src tgt before after
      = before ++ [tgt.withChildren src.childrenOf] ++ after) ∧
    (applyStrategy "replace" divX divT = [Html.elem "div" [("id", "x")] [.text "A"]]) ∧
    (applyStrategy "fill" divX divT
      = [Html.elem "div" [("id", "t")] [Html.elem "div" [("id", "x")] [.text "A"]]]) ∧
    (applyStrategy "copy" divX divT = [Html.elem "div" [("id", "t")] [.text "A"]]) := by
  refine ⟨?_, ?_, ?_, ?_, ?_, ?_⟩ <;>
    simp [mergeRegion, applyStrategy, moveChildren_eq, divX, divT,
      Html.withChildren, Html.childrenOf]

/-! ## Configuration model

Mirrors the three layers of vik.js: built-in defaults and the global
singleton configuration (the underscore fields set by the private init
routine), the per-call and per-element parameter object, and the merged
effective parameters computed at the start of the exec routine. -/

/-- Truthiness of a JS string-or-null value: null and the empty string are
falsy, every other string is truthy. -/
def truthyS : Option String → Bool
  | none => false
  | some s => s ≠ ""

/-- Truthiness of a field that can be absent, null, or a string. -/
def truthyOS : Option (Option String) → Bool
  | some (some s) => s ≠ ""
  | _ => false

/-- The global singleton configuration fields used by the navigation
engine (the relevant outputs of the private parameter-reading routine). -/
structure GlobalCfg where
  ghost : Bool
  scrollToTop : Option Bool
  title : Option String
  target : Option String
  source : Option String
  strategy : String
  prefixUrl : Option String
deriving Repr, DecidableEq

/-- The built-in defaults of the private parameter-reading routine:
ghost false, scrollToTop null, title selector "title", target "body",
source "body", strategy "replace", URL prefix null. -/
def defaultGlobal : GlobalCfg :=
  ⟨false, none, some "title", some "body", some "body", "replace", none⟩

/-- The per-call parameter object built by the load entry point: every
field may be absent. String fields that JS callers can also set to null
are modelled as Option Option. The postData field records that a form
payload was attached. -/
structure CallParams where
  method : Option String
  ghost : Option Bool
  strategy : Option String
  target : Option (Option String)
  source : Option (Option String)
  scrollToTop : Option Bool
  prefixUrl : Option (Option String)
  title : Option (Option String)
  postData : Bool
deriving Repr, DecidableEq

/-- The empty parameter object (a call with no overrides). -/
def CallParams.empty : CallParams :=
  ⟨none, none, none, none, none, none, none, none, false⟩

/-- A history entry: the navigated URL plus a clone of the call parameters
(the state object is built as the url plus an overload by initParams). -/
structure HistEntry where
  url : String
  ps : CallParams
deriving Repr, DecidableEq

/-- The mutable state of the vik singleton together with the pieces of
browser state the library mutates: the session history (pushed entries),
the page title, and the script registry plus the children of head. -/
structure VikState where
  lastUrl : Option String
  previousUrl : Option String
  quitPageConfirm : Bool
  history : List HistEntry
  dirtyForms : List Nat
  jsIncludes : List String
  headChildren : Option (List Html)
  pageTitle : String

/-- Helper: one string field of the overloaded parameter object; a key
present in the overload object wins, otherwise the base object's value is
kept (overloadObject copies own properties of the overload). -/
def mergedOS (g : Option String) (c : Option (Option String)) : Option String :=
  match c with
  | some v => v
  | none => g

/-- The effective parameters of one navigation as computed at the start of
the exec routine: global parameters overloaded by the call parameters,
then scrollToTop defaulting and the title selector split. -/
structure EffParams where
  method : Option String
  ghost : Bool
  strategy : String
  target : Option String
  source : Option String
  scrollToTop : Bool
  prefixUrl : Option String
  title : Option String
  titleAttribute : Option String
  postData : Bool
deriving Repr, DecidableEq

/-- params.title.lastIndexOf of the slash character; splits the merged
title selector into selector and attribute name when a slash occurs. -/
def splitTitleAttr (t : String) : String × Option String :=
  let l := t.toList
  match l.reverse.findIdx? (fun c => c = '/') with
  | none => (t, none)
  | some rIdx =>
    let pos := l.length - 1 - rIdx
    (String.mk (l.take pos), some (String.mk (l.drop (pos + 1))))

/-- Embeds the start of the exec routine: overload the global parameters
with the call parameters, default scrollToTop to the negation of ghost
when absent or null, reset titleAttribute and split a truthy title
selector at its last slash. -/
def effParamsOf (g : GlobalCfg) (c : CallParams) : EffParams :=
  let ghost := c.ghost.getD g.ghost
  let scrollMerged : Option Bool :=
    match c.scrollToTop with
    | some b => some b
    | none => g.scrollToTop
  let scroll := scrollMerged.getD (!ghost)
  let titleMerged := mergedOS g.title c.title
  let (ttl, tattr) :=
    match titleMerged with
    | none => (none, none)
    | some t =>
      if t = "" then (some t, none)
      else
        match splitTitleAttr t with
        | (sel, at_) => (some sel, at_)
  { method := c.method
    ghost := ghost
    strategy := c.strategy.getD g.strategy
    target := mergedOS g.target c.target
    source := mergedOS g.source c.source
    scrollToTop := scroll
    prefixUrl := mergedOS g.prefixUrl c.prefixUrl
    title := ttl
    titleAttribute := tattr
    postData := c.postData }

/-- Raw mode decision of the exec routine: raw unless a source selector is
truthy or a truthy title has to be handled on a non-ghost navigation. -/
def asRawOf (p : EffParams) : Bool :=
  !(truthyS p.source || (truthyS p.title && !p.ghost))

/-! ## History commit (exec fetch handler, lines after the merge)

Embeds
  if (params.ghost !== true) {
    vik.setQuitPageConfirmation(false);
    if (vik._lastUrl == url) { log } else {
      vik._previousUrl = vik._lastUrl; vik._lastUrl = url;
      var state = {"url": url}; vik.overloadObject(state, initParams);
      window.history.pushState(state, "", url); } } -/

/-- The non-ghost commit step of the fetch handler: disarm the quit
confirmation, then push a new entry unless the URL equals the last loaded
URL, updating previousUrl and lastUrl. Ghost navigations skip all of it. -/
def commitHistory (ghost : Bool) (url : String) (initP : CallParams)
    (s : VikState) : VikState :=
  if ghost = true then s
  else
    let s1 := { s with quitPageConfirm := false }
    if s1.lastUrl = some url then s1
    else
      { s1 with
        previousUrl := s1.lastUrl
        lastUrl := some url
        history := s1.history ++ [⟨url, initP⟩] }

/-! ## Script re-materialization (the private script-node loader) -/

/-- Embeds the loop of the private script-node loader: for each source
script node build a fresh script element; an external reference already in
the registry of loaded includes is skipped, a new external reference is
appended and registered, an inline script is always appended with its
content copied. Returns the updated registry and head children. -/
def loadScriptNodes (scriptNodes : List Html) (jsIncludes : List String)
    (headChildren : List Html) : List String × List Html :=
  match scriptNodes with
  | [] => (jsIncludes, headChildren)
  | sn :: rest =>
    match sn.attrOf "src" with
    | some src =>
      if jsIncludes.contains src then
        loadScriptNodes rest jsIncludes headChildren
      else
        loadScriptNodes rest (jsIncludes ++ [src])
          (headChildren ++
            [Html.elem "script" [("type", "text/javascript"), ("src", src)] []])
    | none =>
      loadScriptNodes rest jsIncludes
        (headChildren ++
          [Html.elem "script" [("type", "text/javascript")] sn.childrenOf])

/-- Number of script elements in the head carrying a given src value. -/
def countSrc (headChildren : List Html) (u : String) : Nat :=
  (headChildren.filter (fun h => h.attrOf "src" = some u)).length

/-- Number of inline (src-less) script elements in the head. -/
def countInline (headChildren : List Html) : Nat :=
  (headChildren.filter (fun h => h.attrOf "src" = none)).length

/-! ## Fetch response and the exec fetch handler -/

/-- A fetch response seen through both response types: the verbatim text
body (raw mode) and the parsed document (structured mode). -/
structure Response where
  raw : String
  doc : Html
deriving Inhabited

mutual
/-- Concatenated text content of a node (innerText). -/
def innerTextOf : Html → String
  | .text s => s
  | .elem _ _ cs => innerTextList cs

/-- Concatenated text content of a forest. -/
def innerTextList : List Html → String
  | [] => ""
  | h :: rest => innerTextOf h ++ innerTextList rest
end

/-- The page-title block of the fetch handler: locate the title node in
the fetched document and write its text or the named attribute as the new
page title, logging distinct warnings when the node, the text or the
attribute is missing or empty. A falsy titleAttribute uses the node text. -/
def titleStep (p : EffParams) (doc : Html) (s : VikState) :
    VikState × List String :=
  match p.title with
  | none => (s, [])
  | some tsel =>
    match doc.querySelector tsel with
    | none => (s, ["[Vik] Unable to find the page title node."])
    | some tn =>
      let useText :=
        match p.titleAttribute with
        | none => true
        | some ta => ta = ""
      if useText then
        let tt := innerTextOf tn
        if tt = "" then (s, ["[Vik] Empty title tag."])
        else ({ s with pageTitle := tt }, [])
      else
        let ta := p.titleAttribute.getD ""
        match tn.attrOf ta with
        | some tt =>
          if tt = "" then (s, ["[Vik] Empty title attribute."])
          else ({ s with pageTitle := tt }, [])
        | none => (s, ["[Vik] Unable to find the page title attribute."])

/-- Result of the fetch handler of the exec routine: the nodes standing
where the target stood, the updated state, the log lines, and whether the
code after the merge (history commit and rescan) was reached. -/
structure HandlerOut where
  region : List Html
  state : VikState
  log : List String
  committed : Bool

/-- Embeds the fetch handler of the exec routine, in source order: the
title block (structured, non-ghost, truthy title only), then the content
write (raw / no source / strategy merge with script re-materialization,
where a missing source selector aborts before any target mutation), then
the non-ghost history commit. Scrolling and the rescan do not touch the
modelled state. -/
def loadHandler (p : EffParams) (initP : CallParams) (url : String)
    (resp : Response) (targetNode : Html) (s : VikState) : HandlerOut :=
  let tRes :=
    if !(asRawOf p) && !p.ghost && truthyS p.title then
      titleStep p resp.doc s
    else (s, [])
  let s1 := tRes.1
  let log1 := tRes.2
  if asRawOf p then
    let region := [targetNode.withChildren [Html.text resp.raw]]
    ⟨region, commitHistory p.ghost url initP s1, log1, true⟩
  else if truthyS p.source = false then
    match resp.doc.childrenOf with
    | [] =>
      ⟨[targetNode], s1,
        log1 ++ ["[Vik] The fetched content is not valid HTML."], false⟩
    | c :: _ =>
      let region := [targetNode.withChildren c.childrenOf]
      ⟨region, commitHistory p.ghost url initP s1, log1, true⟩
  else
    let sel := p.source.getD ""
    match resp.doc.querySelector sel with
    | none =>
      ⟨[targetNode], s1,
        log1 ++ ["[Vik] Source selector returns nothing."], false⟩
    | some srcNode =>
      let scripts := srcNode.querySelectorAll "script"
      let region := applyStrategy p.strategy srcNode targetNode
      let s2 :=
        match s1.headChildren with
        | none => s1
        | some hc =>
          let r := loadScriptNodes scripts s1.jsIncludes hc
          { s1 with jsIncludes := r.1, headChildren := some r.2 }
      ⟨region, commitHistory p.ghost url initP s2, log1, true⟩

/-! ## Quit-page confirmation guard (the guard block of the load entry) -/

/-- Embeds the private modified-form scan: some form other than the
current one carries the changed marker. -/
def foundModifiedForm (dirtyForms : List Nat) (currentForm : Nat) : Bool :=
  dirtyForms.any (fun f => f != currentForm)

/-- Result of the guard block: whether the navigation proceeds, the state
after the block, and whether the confirmation prompt was displayed. -/
structure GuardOut where
  proceed : Bool
  state : VikState
  promptShown : Bool

/-- Embeds the quit-page confirmation block of the load entry point: a
form that is the only dirty form drops its changed marker and either
disarms the guard silently (when the call parameters do not set ghost) or
sets the force flag that skips the prompt; an armed guard without the
force flag prompts, a negative answer aborts, a positive one disarms. -/
def guardPhase (isForm : Bool) (formId : Nat) (psGhost : Option Bool)
    (confirmAnswer : Bool) (s : VikState) : GuardOut :=
  let r1 :=
    if s.quitPageConfirm && isForm && !(foundModifiedForm s.dirtyForms formId) then
      let s' := { s with dirtyForms := s.dirtyForms.filter (fun f => f != formId) }
      if psGhost = some true then (s', true)
      else ({ s' with quitPageConfirm := false }, false)
    else (s, false)
  let s1 := r1.1
  let force := r1.2
  if s1.quitPageConfirm && !force then
    if !confirmAnswer then ⟨false, s1, true⟩
    else ⟨true, { s1 with quitPageConfirm := false }, true⟩
  else ⟨true, s1, false⟩

/-! ## Pre-navigation hook pipeline -/

/-- One pass over a hook list: each hook is modelled by whether it marks
the shared pre-navigation event as prevented. Every hook runs; the flag
only accumulates. Returns the final flag and the number of hooks run
(the callback executor never stops on a preventing hook, and the event
dispatch invokes every listener). -/
def runHookList : List Bool → Bool → Bool × Nat
  | [], prevented => (prevented, 0)
  | h :: rest, prevented =>
    let r := runHookList rest (prevented || h)
    (r.1, r.2 + 1)

/-! ## The load entry point -/

/-- A link or form element as seen by the load entry point. -/
structure InputElem where
  nodeName : String
  attrs : List (String × String)
  formId : Nat
deriving Repr, DecidableEq

/-- input.getAttribute. -/
def getAttr (e : InputElem) (n : String) : Option String :=
  (e.attrs.find? (fun p => p.1 = n)).map (fun p => p.2)

/-- The ambient browser behavior of one navigation: key state, the answer
of the confirmation prompt, the result of the form-validation callback,
the serialized form query string, the cancellation behavior of the merged
local pre-callbacks, the global pre-callbacks and the document listeners
of the pre-load event, and the fetch outcome. -/
structure LoadEnv where
  ctrlPressed : Bool
  confirmAnswer : Bool
  validationOk : Bool
  formQuery : String
  localHooks : List Bool
  globalHooks : List Bool
  listeners : List Bool
  fetchOk : Bool
  resp : Response

/-- The data-vik-method attribute: only the token post (case-insensitive)
sets the method parameter. -/
def applyMethodAttr (v : Option String) (ps : CallParams) : CallParams :=
  match v with
  | none => ps
  | some s => if strToLower s = "post" then { ps with method := some "post" } else ps

/-- The data-vik-ghost attribute: the token true sets ghost, the token
false clears it, any other token leaves the parameter untouched. -/
def applyGhostAttr (v : Option String) (ps : CallParams) : CallParams :=
  match v with
  | none => ps
  | some s =>
    if s = "true" then { ps with ghost := some true }
    else if s = "false" then { ps with ghost := some false }
    else ps

/-- The data-vik-strategy attribute: only the three known strategy names
are accepted. -/
def applyStrategyAttr (v : Option String) (ps : CallParams) : CallParams :=
  match v with
  | none => ps
  | some s =>
    if s = "replace" || s = "fill" || s = "copy" then { ps with strategy := some s }
    else ps

/-- The data-vik-scroll-to-top attribute: the lowercased tokens true and
false set the parameter, any other token leaves it untouched. -/
def applyScrollAttr (v : Option String) (ps : CallParams) : CallParams :=
  match v with
  | none => ps
  | some s =>
    let lv := strToLower s
    if lv = "true" then { ps with scrollToTop := some true }
    else if lv = "false" then { ps with scrollToTop := some false }
    else ps

/-- Outcome of the input-processing part of the load entry point: let the
browser act (true return), abandon (false return before the guard), or
proceed with the resolved URL and parameters. -/
inductive ProcessOut where
  | browserDefault
  | failed
  | ok (url : String) (ps : CallParams) (isForm : Bool)
deriving Repr, DecidableEq

/-- Embeds the input processing of the load entry point for an element
input: the ctrl-click passthrough for links, URL extraction from the
data-vik-url, action and href attributes, the per-element attribute
overrides, then the form handling (validation callback, POST forcing
ghost, scroll and payload, GET serializing the fields into the query
string). -/
def processInput (g : GlobalCfg) (input : InputElem) (ps0 : CallParams)
    (env : LoadEnv) : ProcessOut :=
  let isForm := strToLower input.nodeName = "form"
  if strToLower input.nodeName = "a" && env.ctrlPressed then .browserDefault
  else
    let url? :=
      match getAttr input "data-vik-url" with
      | some u => some u
      | none =>
        match (if isForm then getAttr input "action" else none) with
        | some u => some u
        | none => getAttr input "href"
    if truthyS url? = false then .failed
    else
      let url := url?.getD ""
      let ps := applyMethodAttr (getAttr input "data-vik-method") ps0
      let ps := applyGhostAttr (getAttr input "data-vik-ghost") ps
      let ps := applyStrategyAttr (getAttr input "data-vik-strategy") ps
      let ps :=
        match getAttr input "data-vik-target" with
        | some v => { ps with target := some (some v) }
        | none => ps
      let ps :=
        match getAttr input "data-vik-source" with
        | some v => { ps with source := some (some v) }
        | none => ps
      let ps := applyScrollAttr (getAttr input "data-vik-scroll-to-top") ps
      let ps :=
        match getAttr input "data-vik-prefix" with
        | some v => { ps with prefixUrl := some (some v) }
        | none => ps
      let ps :=
        match getAttr input "data-vik-title" with
        | some v => { ps with title := some (some v) }
        | none => ps
      if isForm then
        if (getAttr input "data-vik-form-validation").isSome && !env.validationOk then
          .failed
        else
          let method := strToLower ((getAttr input "method").getD "get")
          if method = "post" then
            let ps := { ps with ghost := some true }
            let ps :=
              if g.scrollToTop ≠ some false ∧ ps.scrollToTop ≠ some false then
                { ps with scrollToTop := some true }
              else ps
            .ok url { ps with postData := true } true
          else
            .ok (url ++ "?" ++ env.formQuery) ps true
      else .ok url ps false

/-- document.querySelector of the current page, modelled abstractly as an
association of selectors to nodes. -/
def docQS (doc : List (String × Html)) (sel : String) : Option Html :=
  (doc.find? (fun p => p.1 = sel)).map (fun p => p.2)

/-- Result of the exec routine: whether the request was issued and to
which URL, whether the POST-method check threw, the state, the nodes
standing where the target stood (none when untouched), the log, and
whether the post-merge section ran. -/
structure ExecOut where
  fetchIssued : Bool
  fetchUrl : Option String
  threw : Bool
  state : VikState
  region : Option (List Html)
  log : List String
  committed : Bool

/-- Embeds the exec routine: merge the parameters, locate the target node
(aborting with a log when the selector is falsy or matches nothing),
apply the URL prefix, decide raw mode, then issue the request and run the
fetch handler on a successful response. The POST-method check references
an undeclared identifier, so a method parameter equal to post throws
before any request. -/
def loadExec (g : GlobalCfg) (url : String) (initP : CallParams)
    (env : LoadEnv) (doc : List (String × Html)) (s : VikState) : ExecOut :=
  let p := effParamsOf g initP
  if truthyS p.target = false then
    ⟨false, none, false, s, none, ["[Vik] No target selector defined."], false⟩
  else
    match docQS doc (p.target.getD "") with
    | none =>
      ⟨false, none, false, s, none, ["[Vik] Unable to find target element."], false⟩
    | some targetNode =>
      let realUrl := if truthyS p.prefixUrl then p.prefixUrl.getD "" ++ url else url
      if p.method = some "post" then
        ⟨false, none, true, s, none, [], false⟩
      else if env.fetchOk then
        let h := loadHandler p initP url env.resp targetNode s
        ⟨true, some realUrl, false, h.state, some h.region, h.log, h.committed⟩
      else
        ⟨true, some realUrl, false, s, none, [], false⟩

/-- Result of one call of the load entry point. -/
structure LoadOut where
  allowBrowser : Bool
  fetchIssued : Bool
  threw : Bool
  hooksRan : Nat
  promptShown : Bool
  canceled : Bool
  state : VikState
  region : Option (List Html)
  log : List String

/-- Embeds the load entry point for an element input: input processing,
the quit-page confirmation guard, the pre-callback and pre-load event
pipeline (every hook runs, a prevented event aborts before any request),
then the exec routine. -/
def load (g : GlobalCfg) (input : InputElem) (ps0 : CallParams)
    (env : LoadEnv) (doc : List (String × Html)) (s : VikState) : LoadOut :=
  match processInput g input ps0 env with
  | .browserDefault => ⟨true, false, false, 0, false, false, s, none, []⟩
  | .failed => ⟨false, false, false, 0, false, false, s, none, []⟩
  | .ok url ps isForm =>
    let gout := guardPhase isForm input.formId ps.ghost env.confirmAnswer s
    if gout.proceed = false then
      ⟨false, false, false, 0, gout.promptShown, false, gout.state, none, []⟩
    else
      let r1 := runHookList (env.localHooks ++ env.globalHooks) false
      let r2 := runHookList env.listeners r1.1
      let hooksRan := r1.2 + r2.2
      if r2.1 then
        ⟨false, false, false, hooksRan, gout.promptShown, true, gout.state, none, []⟩
      else
        let ex := loadExec g url ps env doc gout.state
        ⟨false, ex.fetchIssued, ex.threw, hooksRan, gout.promptShown, false,
          ex.state, ex.region, ex.log⟩

/-! ## Backward and forward replay (the popstate handler) -/

/-- Resolution phase of the popstate handler: a missing state record means
a full browser reload; otherwise the target node comes from the recorded
target selector when that is truthy and matches, else from the global
target selector, a complete miss meaning a full reload; the source falls
back to the global configuration only when the record has no source key
and the strategy when the recorded one is falsy. -/
inductive PopResolve where
  | fullReload
  | replay (url : String) (targetNode : Html) (src : Option String)
      (asHTML : Bool) (strategy : String)

/-- Embeds the top of the popstate handler, up to the fetch call. -/
def onpopstateResolve (g : GlobalCfg) (doc : List (String × Html))
    (st : Option HistEntry) : PopResolve :=
  match st with
  | none => .fullReload
  | some e =>
    let t1 :=
      if truthyOS e.ps.target then docQS doc ((e.ps.target.getD none).getD "")
      else none
    let t2 :=
      match t1 with
      | some n => some n
      | none => if truthyS g.target then docQS doc (g.target.getD "") else none
    match t2 with
    | none => .fullReload
    | some tn =>
      let src :=
        match e.ps.source with
        | some v => v
        | none => g.source
      let strat :=
        match e.ps.strategy with
        | some sv => if sv = "" then g.strategy else sv
        | none => g.strategy
      .replay e.url tn src (truthyS src) strat

/-- Result of the popstate handler. -/
structure PopOut where
  fullReload : Bool
  state : VikState
  region : Option (List Html)
  log : List String

/-- Embeds the popstate handler: resolve, fetch, write raw text or merge
the located source node per strategy (script re-materialization included),
then update previousUrl and lastUrl; a missing source node returns before
the bookkeeping; no branch pushes a history entry. -/
def onpopstate (g : GlobalCfg) (doc : List (String × Html))
    (st : Option HistEntry) (fetchOk : Bool) (resp : Response)
    (s : VikState) : PopOut :=
  match onpopstateResolve g doc st with
  | .fullReload => ⟨true, s, none, []⟩
  | .replay url tn src asHTML strat =>
    if fetchOk = false then ⟨false, s, none, []⟩
    else if asHTML = false then
      let region := [tn.withChildren [Html.text resp.raw]]
      ⟨false, { s with previousUrl := s.lastUrl, lastUrl := some url },
        some region, []⟩
    else
      match resp.doc.querySelector (src.getD "") with
      | none => ⟨false, s, none, ["[Vik] Source selector returns nothing."]⟩
      | some srcNode =>
        let scripts := srcNode.querySelectorAll "script"
        let region := applyStrategy strat srcNode tn
        let s1 :=
          match s.headChildren with
          | none => s
          | some hc =>
            let r := loadScriptNodes scripts s.jsIncludes hc
            { s with jsIncludes := r.1, headChildren := some r.2 }
        ⟨false, { s1 with previousUrl := s1.lastUrl, lastUrl := some url },
          some region, []⟩

/-! ## Helper lemmas -/

theorem runHookList_eq (l : List Bool) (b : Bool) :
    runHookList l b = (b || l.any id, l.length) := by
  induction l generalizing b with
  | nil => simp [runHookList]
  | cons h rest ih => simp [runHookList, ih, Bool.or_assoc]

theorem commitHistory_ghost (url : String) (initP : CallParams) (s : VikState) :
    commitHistory true url initP s = s := by
  simp [commitHistory]

theorem titleStep_fields (p : EffParams) (d : Html) (s : VikState) :
    (titleStep p d s).1.lastUrl = s.lastUrl ∧
    (titleStep p d s).1.previousUrl = s.previousUrl ∧
    (titleStep p d s).1.quitPageConfirm = s.quitPageConfirm ∧
    (titleStep p d s).1.history = s.history ∧
    (titleStep p d s).1.jsIncludes = s.jsIncludes ∧
    (titleStep p d s).1.headChildren = s.headChildren ∧
    (titleStep p d s).1.dirtyForms = s.dirtyForms := by
  unfold titleStep
  rcases p.title with _ | tsel
  · simp
  · simp only
    rcases d.querySelector tsel with _ | tn
    · simp
    · simp only
      by_cases hu :
          (match p.titleAttribute with
           | none => true
           | some ta => decide (ta = "")) = true
      · simp only [hu, if_true]
        split <;> simp
      · simp only [hu, if_false, Bool.false_eq_true]
        rcases tn.attrOf (p.titleAttribute.getD "") with _ | tt
        · simp
        · simp only
          split <;> simp

theorem loadHandler_ghost (p : EffParams) (initP : CallParams) (url : String)
    (resp : Response) (tn : Html) (s : VikState) (hg : p.ghost = true) :
    (loadHandler p initP url resp tn s).state.lastUrl = s.lastUrl ∧
    (loadHandler p initP url resp tn s).state.previousUrl = s.previousUrl ∧
    (loadHandler p initP url resp tn s).state.history = s.history ∧
    (loadHandler p initP url resp tn s).state.quitPageConfirm = s.quitPageConfirm := by
  unfold loadHandler
  simp only [hg, Bool.not_true, Bool.and_false, Bool.false_and, Bool.and_self,
    if_neg (by simp : ¬ (false = true))]
  simp only [commitHistory_ghost]
  split
  · simp
  · split
    · split <;> simp [commitHistory_ghost]
    · split
      · simp
      · split <;> simp [commitHistory_ghost]

theorem guardPhase_preserves (f : Bool) (fid : Nat) (pg : Option Bool)
    (ans : Bool) (s : VikState) :
    (guardPhase f fid pg ans s).state.lastUrl = s.lastUrl ∧
    (guardPhase f fid pg ans s).state.previousUrl = s.previousUrl ∧
    (guardPhase f fid pg ans s).state.history = s.history ∧
    (guardPhase f fid pg ans s).state.jsIncludes = s.jsIncludes ∧
    (guardPhase f fid pg ans s).state.headChildren = s.headChildren := by
  unfold guardPhase
  repeat' split <;> simp_all

theorem loadExec_ghost (g : GlobalCfg) (url : String) (initP : CallParams)
    (env : LoadEnv) (doc : List (String × Html)) (s : VikState)
    (hg : (effParamsOf g initP).ghost = true) :
    (loadExec g url initP env doc s).state.lastUrl = s.lastUrl ∧
    (loadExec g url initP env doc s).state.previousUrl = s.previousUrl ∧
    (loadExec g url initP env doc s).state.history = s.history ∧
    (loadExec g url initP env doc s).state.quitPageConfirm = s.quitPageConfirm := by
  unfold loadExec
  by_cases h1 : truthyS (effParamsOf g initP).target = false
  · simp [h1]
  · rw [if_neg h1]
    rcases hq : docQS doc ((effParamsOf g initP).target.getD "") with _ | tn
    · simp [hq]
    · simp only [hq]
      by_cases h2 : (effParamsOf g initP).method = some "post"
      · simp [h2]
      · rw [if_neg h2]
        by_cases h3 : env.fetchOk = true
        · rw [if_pos h3]
          exact loadHandler_ghost _ initP url env.resp _ s hg
        · rw [if_neg h3]
          exact ⟨rfl, rfl, rfl, rfl⟩

theorem load_ghost_preserves (g : GlobalCfg) (input : InputElem)
    (ps0 : CallParams) (env : LoadEnv) (doc : List (String × Html))
    (s : VikState) (url : String) (ps : CallParams) (f : Bool)
    (hp : processInput g input ps0 env = .ok url ps f)
    (hg : (effParamsOf g ps).ghost = true) :
    (load g input ps0 env doc s).state.lastUrl = s.lastUrl ∧
    (load g input ps0 env doc s).state.previousUrl = s.previousUrl ∧
    (load g input ps0 env doc s).state.history = s.history := by
  obtain ⟨e1, e2, e3, _, _⟩ :=
    guardPhase_preserves f input.formId ps.ghost env.confirmAnswer s
  unfold load
  rw [hp]
  simp only
  by_cases hgd :
      (guardPhase f input.formId ps.ghost env.confirmAnswer s).proceed = false
  · simp [hgd, e1, e2, e3]
  · rw [if_neg hgd]
    by_cases hc :
        (runHookList env.listeners
          (runHookList (env.localHooks ++ env.globalHooks) false).1).1 = true
    · simp [hc, e1, e2, e3]
    · simp only [hc, Bool.false_eq_true, if_false]
      obtain ⟨x1, x2, x3, _⟩ :=
        loadExec_ghost g url ps env doc
          (guardPhase f input.formId ps.ghost env.confirmAnswer s).state hg
      refine ⟨?_, ?_, ?_⟩
      · exact x1.trans e1
      · exact x2.trans e2
      · exact x3.trans e3

/-! ## Concrete fixtures used by witnesses and counterexamples -/

/-- The body element of the current page. -/
def bodyNode : Html := .elem "body" [] [.text "OLD"]

/-- A current page whose body selector resolves. -/
def docG : List (String × Html) := [("body", bodyNode)]

/-- A fetched response whose parsed document contains a body element. -/
def respG : Response :=
  ⟨"RAW", .elem "#document" [] [.elem "html" [] [.elem "body" [] [.text "NEW"]]]⟩

/-- A benign environment: no ctrl key, prompt answered yes, validation
passes, no hook prevents the navigation, the fetch succeeds. -/
def envBase : LoadEnv := ⟨false, true, true, "", [], [], [], true, respG⟩

/-- A fresh state with the quit confirmation armed. -/
def stArmed : VikState := ⟨none, none, true, [], [], [], some [], ""⟩

/-- A fresh state with the quit confirmation disarmed. -/
def st0 : VikState := ⟨none, none, false, [], [], [], some [], ""⟩

/-- A link carrying an explicit ghost attribute. -/
def linkGhost : InputElem := ⟨"a", [("href", "/g"), ("data-vik-ghost", "true")], 0⟩

/-- The parameters produced for that link: only ghost is set. -/
def psGhostTrue : CallParams := { CallParams.empty with ghost := some true }

/-! ## Claim C2 -/

/-- C2 counterexample: a ghost navigation can disarm the quit-page
confirmation. With the guard armed, activating a link whose ghost
attribute is true shows the confirmation prompt in the guard phase of the
load entry point; a granted prompt disarms the guard before the exec
routine runs, although the effective ghost flag of the navigation is
true, so the claim that a ghost navigation never disarms the quit-page
confirmation state is false on the code. History stays untouched. -/
theorem ghost_can_disarm_guard_cex :
    processInput defaultGlobal linkGhost CallParams.empty envBase =
      .ok "/g" psGhostTrue false ∧
    (effParamsOf defaultGlobal psGhostTrue).ghost = true ∧
    stArmed.quitPageConfirm = true ∧
    (load defaultGlobal linkGhost CallParams.empty envBase docG
      stArmed).state.quitPageConfirm = false ∧
    (load defaultGlobal linkGhost CallParams.empty envBase docG
      stArmed).state.history = stArmed.history := by
  refine ⟨by decide, by decide, by decide, by decide, by decide⟩

/-- C2 amended: for every navigation whose effective ghost flag is true,
no browser history entry is pushed and the tracked lastUrl and
previousUrl are unchanged; the post-merge commit step of the exec routine
leaves the whole state (in particular the quit-page confirmation)
untouched — though the guard phase of the load entry point may still
disarm the confirmation before the fetch when its prompt is granted. -/
theorem ghost_no_history_mutation (g : GlobalCfg) (input : InputElem)
    (ps0 : CallParams) (env : LoadEnv) (doc : List (String × Html))
    (s : VikState) (url : String) (ps : CallParams) (f : Bool)
    (hp : processInput g input ps0 env = .ok url ps f)
    (hg : (effParamsOf g ps).ghost = true) :
    (load g input ps0 env doc s).state.lastUrl = s.lastUrl ∧
    (load g input ps0 env doc s).state.previousUrl = s.previousUrl ∧
    (load g input ps0 env doc s).state.history = s.history ∧
    (∀ u e2 s2, commitHistory true u e2 s2 = s2) := by
  obtain ⟨a, b, c⟩ := load_ghost_preserves g input ps0 env doc s url ps f hp hg
  exact ⟨a, b, c, fun u e2 s2 => commitHistory_ghost u e2 s2⟩

/-- Witness for C2 at a concrete ghost link navigation. -/
theorem ghost_no_history_mutation_w :
    (load defaultGlobal linkGhost CallParams.empty envBase docG
      st0).state.history = st0.history :=
  (ghost_no_history_mutation defaultGlobal linkGhost CallParams.empty envBase
    docG st0 "/g" psGhostTrue false (by decide) (by decide)).2.2.1

/-! ## Claim C3 -/

/-- C3: the non-ghost commit step pushes nothing and keeps lastUrl and
previousUrl when the navigated URL equals the tracked lastUrl; otherwise
it pushes exactly one entry and updates previousUrl to the old lastUrl
and lastUrl to the URL; committing the same URL twice consecutively
leaves the history of the first commit unchanged, so two consecutive
activations of the same link push exactly one entry. -/
theorem commit_duplicate_suppression (s : VikState) (url : String)
    (e : CallParams) :
    (s.lastUrl = some url →
      commitHistory false url e s = { s with quitPageConfirm := false }) ∧
    (s.lastUrl ≠ some url →
      commitHistory false url e s =
        { s with
            quitPageConfirm := false
            previousUrl := s.lastUrl
            lastUrl := some url
            history := s.history ++ [⟨url, e⟩] }) ∧
    ((commitHistory false url e (commitHistory false url e s)).history
      = (commitHistory false url e s).history) := by
  refine ⟨?_, ?_, ?_⟩
  · intro h
    simp [commitHistory, h]
  · intro h
    simp [commitHistory, h]
  · by_cases h : s.lastUrl = some url <;>
      simp [commitHistory, h]

/-- Witness for C3: a fresh state records the first commit of a URL. -/
theorem commit_duplicate_suppression_w :
    commitHistory false "/a" CallParams.empty st0 =
      { st0 with
          quitPageConfirm := false
          previousUrl := st0.lastUrl
          lastUrl := some "/a"
          history := st0.history ++ [⟨"/a", CallParams.empty⟩] } :=
  (commit_duplicate_suppression st0 "/a" CallParams.empty).2.1 (by decide)

/-! ## Claim C10 -/

/-- C10: a form submission whose method attribute resolves to post has
ghost forced to true after all attribute overrides were read (even an
explicit false ghost attribute is overridden), so its effective ghost is
true and the whole navigation leaves the history, lastUrl and previousUrl
untouched. -/
theorem post_form_forces_ghost (g : GlobalCfg) (input : InputElem)
    (ps0 : CallParams) (env : LoadEnv) (doc : List (String × Html))
    (s : VikState)
    (hform : strToLower input.nodeName = "form")
    (hmethod : strToLower ((getAttr input "method").getD "get") = "post") :
    (∀ url ps f, processInput g input ps0 env = .ok url ps f →
      ps.ghost = some true ∧ (effParamsOf g ps).ghost = true) ∧
    (load g input ps0 env doc s).state.history = s.history ∧
    (load g input ps0 env doc s).state.lastUrl = s.lastUrl ∧
    (load g input ps0 env doc s).state.previousUrl = s.previousUrl := by
  have key : ∀ url ps f, processInput g input ps0 env = .ok url ps f →
      ps.ghost = some true := by
    intro url ps f h
    unfold processInput at h
    rw [hform] at h
    simp only [hmethod] at h
    simp at h
    split at h
    · exact absurd h (by simp)
    · split at h
      · exact absurd h (by simp)
      · split at h <;>
        · cases h
          split <;> simp
  have pres : (load g input ps0 env doc s).state.history = s.history ∧
      (load g input ps0 env doc s).state.lastUrl = s.lastUrl ∧
      (load g input ps0 env doc s).state.previousUrl = s.previousUrl := by
    rcases hpo : processInput g input ps0 env with _ | _ | ⟨url, ps, f⟩
    · simp [load, hpo]
    · simp [load, hpo]
    · have hg : (effParamsOf g ps).ghost = true := by
        simp [effParamsOf, key url ps f hpo]
      obtain ⟨a, b, c⟩ :=
        load_ghost_preserves g input ps0 env doc s url ps f hpo hg
      exact ⟨c, a, b⟩
  refine ⟨fun url ps f h => ⟨key url ps f h, ?_⟩, pres.1, pres.2.1, pres.2.2⟩
  simp [effParamsOf, key url ps f h]

/-- The POST form of the witness: its action and method attributes. -/
def postForm : InputElem := ⟨"form", [("action", "/save"), ("method", "post")], 7⟩

/-- Witness for C10 at a concrete POST form submission. -/
theorem post_form_forces_ghost_w :
    (load defaultGlobal postForm CallParams.empty envBase docG
      st0).state.history = st0.history :=
  (post_form_forces_ghost defaultGlobal postForm CallParams.empty envBase docG
    st0 (by decide) (by decide)).2.1

/-! ## Claim C4 -/

/-- C4: for every navigation that reaches the pre-navigation pipeline, if
any hook of the ordered pipeline (element-local pre-callbacks, then global
pre-callbacks, then the listeners of the cancelable pre-load event) marks
the event as prevented, then no request is issued and the history is
unchanged, while every hook of the pipeline still runs. -/
theorem precancel_blocks_navigation (g : GlobalCfg) (input : InputElem)
    (ps0 : CallParams) (env : LoadEnv) (doc : List (String × Html))
    (s : VikState) (url : String) (ps : CallParams) (f : Bool)
    (hp : processInput g input ps0 env = .ok url ps f)
    (hguard :
      (guardPhase f input.formId ps.ghost env.confirmAnswer s).proceed = true)
    (hcancel : (env.localHooks ++ env.globalHooks ++ env.listeners).any id = true) :
    (load g input ps0 env doc s).fetchIssued = false ∧
    (load g input ps0 env doc s).state.history = s.history ∧
    (load g input ps0 env doc s).hooksRan =
      (env.localHooks ++ env.globalHooks ++ env.listeners).length := by
  have hcanc : (runHookList env.listeners
      (runHookList (env.localHooks ++ env.globalHooks) false).1).1 = true := by
    rw [runHookList_eq, runHookList_eq]
    simp only [Bool.false_or]
    simpa [List.any_append, Bool.or_assoc] using hcancel
  obtain ⟨-, -, e3, -, -⟩ :=
    guardPhase_preserves f input.formId ps.ghost env.confirmAnswer s
  unfold load
  rw [hp]
  simp only
  rw [if_neg (by simp [hguard])]
  split
  · exact ⟨rfl, e3, by simp [runHookList_eq, Nat.add_assoc]⟩
  · rename_i hno
    exact absurd hcanc (by simpa using hno)

/-- A plain eligible link. -/
def linkPlain : InputElem := ⟨"a", [("href", "/p")], 0⟩

/-- An environment whose single element-local pre-callback cancels. -/
def envCancel : LoadEnv := ⟨false, true, true, "", [true], [], [], true, respG⟩

/-- Witness for C4: the canceling hook suppresses the request. -/
theorem precancel_blocks_navigation_w :
    (load defaultGlobal linkPlain CallParams.empty envCancel docG
      st0).fetchIssued = false :=
  (precancel_blocks_navigation defaultGlobal linkPlain CallParams.empty
    envCancel docG st0 "/p" CallParams.empty false (by decide) (by decide)
    (by decide)).1

/-! ## Claim C5 -/

/-- A link whose ghost attribute holds the token on. -/
def linkOn : InputElem := ⟨"a", [("href", "/p"), ("data-vik-ghost", "on")], 0⟩

/-- C5 counterexample: the claim says the token on resolves the ghost
field to true; the code only recognizes the exact tokens true and false
for the ghost attribute, so on is ignored and the effective ghost falls
through to the global layer, which is false here — not true. -/
theorem bool_attr_tokens_cex :
    applyGhostAttr (some "on") CallParams.empty = CallParams.empty ∧
    processInput defaultGlobal linkOn CallParams.empty envBase =
      .ok "/p" CallParams.empty false ∧
    (effParamsOf defaultGlobal CallParams.empty).ghost = false := by
  exact ⟨by decide, by decide, by decide⟩

/-- C5 amended: for the ghost attribute exactly the token true resolves
the field to true and exactly the token false resolves it to false
(case-sensitively); for the scroll-to-top attribute the tokens true and
false are recognized case-insensitively; any other token is ignored, so
the value of the next-lower configuration layer is used for the field. -/
theorem bool_attr_token_set (ps : CallParams) (g : GlobalCfg) (v : String)
    (hv1 : v ≠ "true") (hv2 : v ≠ "false")
    (hl1 : strToLower v ≠ "true") (hl2 : strToLower v ≠ "false") :
    ((applyGhostAttr (some "true") ps).ghost = some true) ∧
    ((applyGhostAttr (some "false") ps).ghost = some false) ∧
    (applyGhostAttr (some v) ps = ps) ∧
    ((applyScrollAttr (some "true") ps).scrollToTop = some true) ∧
    ((applyScrollAttr (some "False") ps).scrollToTop = some false) ∧
    (applyScrollAttr (some v) ps = ps) ∧
    ((effParamsOf g (applyGhostAttr (some v) ps)).ghost =
      (effParamsOf g ps).ghost) := by
  have h3 : applyGhostAttr (some v) ps = ps := by
    simp [applyGhostAttr, hv1, hv2]
  have h6 : applyScrollAttr (some v) ps = ps := by
    simp [applyScrollAttr, hl1, hl2]
  refine ⟨by simp [applyGhostAttr], by simp [applyGhostAttr], h3,
    ?_, ?_, h6, by rw [h3]⟩
  · show (applyScrollAttr (some "true") ps).scrollToTop = some true
    have : strToLower "true" = "true" := by decide
    simp [applyScrollAttr, this]
  · show (applyScrollAttr (some "False") ps).scrollToTop = some false
    have h1 : strToLower "False" = "false" := by decide
    have h2 : ("false" : String) ≠ "true" := by decide
    simp [applyScrollAttr, h1, h2]

/-- Witness for C5 at the unrecognized token on. -/
theorem bool_attr_token_set_w :
    applyGhostAttr (some "on") CallParams.empty = CallParams.empty :=
  (bool_attr_token_set CallParams.empty defaultGlobal "on" (by decide)
    (by decide) (by decide) (by decide)).2.2.1

/-! ## Claim C6 -/

/-- An environment where the user answers the confirmation negatively
and the response of the issued request never arrives. -/
def envNo : LoadEnv := ⟨false, false, true, "", [], [], [], false, respG⟩

/-- An armed state where form 7 is the only dirty form. -/
def stArmedDirty : VikState := ⟨none, none, true, [], [7], [], some [], ""⟩

/-- C6 counterexample: the claim says that a ghost navigation by the only
dirty form forces the confirmation prompt. On the code, a POST form (whose
ghost is forced true) that is the only dirty form sets the
force-without-confirmation flag, so the prompt is skipped and the
navigation proceeds to the fetch even though the prompt would have been
answered negatively; the guard stays armed (disarming deferred). -/
theorem quit_guard_ghost_skips_prompt_cex :
    (load defaultGlobal postForm CallParams.empty envNo docG
      stArmedDirty).promptShown = false ∧
    (load defaultGlobal postForm CallParams.empty envNo docG
      stArmedDirty).fetchIssued = true ∧
    (load defaultGlobal postForm CallParams.empty envNo docG
      stArmedDirty).state.quitPageConfirm = true := by
  exact ⟨by decide, by decide, by decide⟩

/-- C6 amended: while the guard is armed, a form navigation with no other
dirty form disarms the guard silently and proceeds without a prompt when
the call parameters do not set ghost; when they set ghost, disarming is
deferred (the guard stays armed) and the prompt is skipped, the
navigation proceeding without confirmation; whenever the prompt is shown,
a negative answer aborts the navigation with no fetch, no history
mutation and no target mutation. -/
theorem quit_guard_behavior (s : VikState) (fid : Nat) (pg : Option Bool)
    (ans f2 : Bool) (g : GlobalCfg) (input : InputElem) (ps0 : CallParams)
    (env : LoadEnv) (doc : List (String × Html)) (url : String)
    (ps : CallParams) (f : Bool) :
    (s.quitPageConfirm = true → foundModifiedForm s.dirtyForms fid = false →
      pg ≠ some true →
      guardPhase true fid pg ans s =
        ⟨true,
          { s with
              dirtyForms := s.dirtyForms.filter (fun x => x != fid)
              quitPageConfirm := false }, false⟩) ∧
    (s.quitPageConfirm = true → foundModifiedForm s.dirtyForms fid = false →
      pg = some true →
      guardPhase true fid pg ans s =
        ⟨true, { s with dirtyForms := s.dirtyForms.filter (fun x => x != fid) },
          false⟩) ∧
    ((guardPhase f2 fid pg false s).promptShown = true →
      (guardPhase f2 fid pg false s).proceed = false) ∧
    (processInput g input ps0 env = .ok url ps f →
      (guardPhase f input.formId ps.ghost env.confirmAnswer s).proceed = false →
      (load g input ps0 env doc s).fetchIssued = false ∧
      (load g input ps0 env doc s).state.history = s.history ∧
      (load g input ps0 env doc s).region = none) := by
  refine ⟨?_, ?_, ?_, ?_⟩
  · intro ha hf hg
    unfold guardPhase
    simp [ha, hf, hg]
  · intro ha hf hg
    unfold guardPhase
    simp [ha, hf, hg]
  · intro hshown
    unfold guardPhase at hshown ⊢
    repeat' split <;> repeat' split at hshown <;> simp_all
  · intro hp hstop
    obtain ⟨-, -, e3, -, -⟩ :=
      guardPhase_preserves f input.formId ps.ghost env.confirmAnswer s
    unfold load
    rw [hp]
    simp only
    rw [if_pos hstop]
    exact ⟨rfl, e3, rfl⟩

/-- Witness for C6: the armed guard with the only dirty form and no ghost
parameter disarms silently without a prompt. -/
theorem quit_guard_behavior_w :
    guardPhase true 7 none true stArmedDirty =
      ⟨true,
        { stArmedDirty with
            dirtyForms := stArmedDirty.dirtyForms.filter (fun x => x != 7)
            quitPageConfirm := false }, false⟩ :=
  (quit_guard_behavior stArmedDirty 7 none true true defaultGlobal postForm
    CallParams.empty envBase docG "/x" CallParams.empty false).1
    (by decide) (by decide) (by decide)

/-! ## Claim C8 -/

/-- C8: in structured mode with a configured (truthy) source selector that
matches nothing in the fetched document, the fetch handler aborts before
the commit: the target region is left exactly as it was, nothing is
committed, history, lastUrl, previousUrl and the quit confirmation are
unchanged, and the warning is logged. -/
theorem source_missing_aborts (p : EffParams) (initP : CallParams)
    (url : String) (resp : Response) (tn : Html) (s : VikState)
    (hraw : asRawOf p = false)
    (hsrc : truthyS p.source = true)
    (hmiss : resp.doc.querySelector (p.source.getD "") = none) :
    (loadHandler p initP url resp tn s).region = [tn] ∧
    (loadHandler p initP url resp tn s).committed = false ∧
    (loadHandler p initP url resp tn s).state.history = s.history ∧
    (loadHandler p initP url resp tn s).state.lastUrl = s.lastUrl ∧
    (loadHandler p initP url resp tn s).state.previousUrl = s.previousUrl ∧
    (loadHandler p initP url resp tn s).state.quitPageConfirm
      = s.quitPageConfirm ∧
    "[Vik] Source selector returns nothing." ∈
      (loadHandler p initP url resp tn s).log := by
  obtain ⟨t1, t2, t3, t4, -, -, -⟩ := titleStep_fields p resp.doc s
  unfold loadHandler
  simp only [hraw, hsrc, hmiss, Bool.not_false, Bool.true_and,
    Bool.false_eq_true, Bool.true_eq_false, if_false]
  split
  · refine ⟨?_, ?_, ?_, ?_, ?_, ?_, ?_⟩ <;>
      first | trivial | exact t4 | exact t1 | exact t2 | exact t3 | simp
  · refine ⟨?_, ?_, ?_, ?_, ?_, ?_, ?_⟩ <;>
      first | trivial | simp

/-- A structured-mode parameter set with a source selector that a document
without that element cannot satisfy. -/
def pMiss : EffParams :=
  ⟨none, false, "replace", some "body", some "#missing", true, none,
    none, none, false⟩

/-- Witness for C8: the handler aborts on the concrete response. -/
theorem source_missing_aborts_w :
    (loadHandler pMiss CallParams.empty "/a" respG bodyNode st0).region
      = [bodyNode] :=
  (source_missing_aborts pMiss CallParams.empty "/a" respG bodyNode st0
    (by decide) (by decide) rfl).1

/-! ## Claim C7 -/

/-- C7 counterexample: the state record carries the target selector #gone,
which matches nothing in the current page. The claim says the replay uses
the recorded target when present, falling back to the global value only
for omitted fields, and that an unresolvable target leads to a full
reload; the code instead silently resolves the target through the global
target selector and replays into that node. -/
theorem replay_target_fallback_cex :
    truthyOS (HistEntry.mk "/a"
      { CallParams.empty with target := some (some "#gone") }).ps.target
        = true ∧
    docQS docG (((HistEntry.mk "/a"
      { CallParams.empty with
          target := some (some "#gone") }).ps.target.getD none).getD "")
        = none ∧
    onpopstateResolve defaultGlobal docG
      (some (HistEntry.mk "/a"
        { CallParams.empty with target := some (some "#gone") })) =
      .replay "/a" bodyNode (some "body") true "replace" := by
  exact ⟨by decide, rfl, rfl⟩

/-- C7 amended: a backward or forward replay never pushes a history entry
and never touches the quit-confirmation guard; a missing state record is
replayed as a full browser reload; when the recorded target selector is
truthy and matches an element, the replay runs on that element with the
source taken from the record when the record has a source key (else the
global source) and the strategy from the record when truthy (else the
global strategy); when neither the recorded nor the global target
selector yields an element, a full reload happens instead of a throw; a
successful replay updates previousUrl to the old lastUrl and lastUrl to
the recorded URL. (The code falls back to the global target selector even
when the recorded one is present but unresolvable.) -/
theorem replay_state_record_fields (g : GlobalCfg) (doc : List (String × Html))
    (st : Option HistEntry) (fOk : Bool) (resp : Response) (s : VikState) :
    ((onpopstate g doc st fOk resp s).state.history = s.history) ∧
    ((onpopstate g doc st fOk resp s).state.quitPageConfirm
      = s.quitPageConfirm) ∧
    (st = none → onpopstate g doc st fOk resp s = ⟨true, s, none, []⟩) ∧
    (∀ e tn, st = some e → truthyOS e.ps.target = true →
      docQS doc ((e.ps.target.getD none).getD "") = some tn →
      onpopstateResolve g doc st =
        .replay e.url tn (mergedOS g.source e.ps.source)
          (truthyS (mergedOS g.source e.ps.source))
          (match e.ps.strategy with
            | some sv => if sv = "" then g.strategy else sv
            | none => g.strategy)) ∧
    (∀ e, st = some e →
      (if truthyOS e.ps.target then
        docQS doc ((e.ps.target.getD none).getD "") else none) = none →
      (if truthyS g.target then docQS doc (g.target.getD "") else none)
        = none →
      onpopstateResolve g doc st = .fullReload) ∧
    (∀ url tn src strat sn,
      onpopstateResolve g doc st = .replay url tn src true strat →
      fOk = true → resp.doc.querySelector (src.getD "") = some sn →
      (onpopstate g doc st fOk resp s).state.lastUrl = some url ∧
      (onpopstate g doc st fOk resp s).state.previousUrl = s.lastUrl) ∧
    (∀ url tn src strat,
      onpopstateResolve g doc st = .replay url tn src false strat →
      fOk = true →
      (onpopstate g doc st fOk resp s).state.lastUrl = some url ∧
      (onpopstate g doc st fOk resp s).state.previousUrl = s.lastUrl) := by
  have hpres :
      (onpopstate g doc st fOk resp s).state.history = s.history ∧
      (onpopstate g doc st fOk resp s).state.quitPageConfirm
        = s.quitPageConfirm := by
    unfold onpopstate
    rcases onpopstateResolve g doc st with _ | ⟨url, tn, src, asH, strat⟩
    · exact ⟨rfl, rfl⟩
    · simp only
      by_cases hf : fOk = false
      · simp [hf]
      · rw [if_neg hf]
        by_cases ha : asH = false
        · rw [if_pos ha]
          exact ⟨rfl, rfl⟩
        · rw [if_neg ha]
          rcases resp.doc.querySelector (src.getD "") with _ | sn
          · exact ⟨rfl, rfl⟩
          · rcases hh : s.headChildren with _ | hc <;> simp [hh]
  refine ⟨hpres.1, hpres.2, ?_, ?_, ?_, ?_, ?_⟩
  · intro h
    subst h
    rfl
  · intro e tn h ht hq
    subst h
    unfold onpopstateResolve
    simp only [ht, eq_self_iff_true, if_true, hq]
    rfl
  · intro e h h1 h2
    subst h
    unfold onpopstateResolve
    simp only [h1, h2]
  · intro url tn src strat sn hr hf hq
    unfold onpopstate
    rw [hr]
    simp only
    rw [if_neg (by simp [hf])]
    rw [if_neg (by simp)]
    simp only [hq]
    rcases hh : s.headChildren with _ | hc <;> simp [hh]
  · intro url tn src strat hr hf
    unfold onpopstate
    rw [hr]
    simp only
    rw [if_neg (by simp [hf])]
    simp only [if_true]
    exact ⟨by trivial, by trivial⟩

/-- A history entry recording target, source and strategy. -/
def entT : HistEntry :=
  ⟨"/a",
    { CallParams.empty with
        target := some (some "body")
        strategy := some "copy" }⟩

/-- Witness for C7: the replay of a record whose target resolves uses the
recorded strategy and the global source the record omits. -/
theorem replay_state_record_fields_w :
    onpopstateResolve defaultGlobal docG (some entT) =
      .replay "/a" bodyNode (mergedOS defaultGlobal.source entT.ps.source)
        (truthyS (mergedOS defaultGlobal.source entT.ps.source))
        (match entT.ps.strategy with
          | some sv => if sv = "" then defaultGlobal.strategy else sv
          | none => defaultGlobal.strategy) :=
  ((replay_state_record_fields defaultGlobal docG (some entT) true respG
    st0).2.2.2.1) entT bodyNode rfl (by decide) rfl

/-! ## Claim C9 -/

/-- The invariant of the script registry: every external src occurs at
most once among the head children, and any occurring src is registered. -/
def ScriptsInv (reg : List String) (headChildren : List Html) : Prop :=
  ∀ u, countSrc headChildren u ≤ 1 ∧ (1 ≤ countSrc headChildren u → u ∈ reg)

/-- A sequence of merges, each processing its fragment script nodes. -/
def processMerges :
    List (List Html) → List String × List Html → List String × List Html
  | [], st => st
  | m :: rest, st => processMerges rest (loadScriptNodes m st.1 st.2)

theorem countSrc_append (hc : List Html) (n : Html) (u : String) :
    countSrc (hc ++ [n]) u =
      countSrc hc u + (if n.attrOf "src" = some u then 1 else 0) := by
  simp only [countSrc, List.filter_append, List.length_append]
  congr 1
  by_cases h : n.attrOf "src" = some u <;> simp [h]

theorem countInline_append (hc : List Html) (n : Html) :
    countInline (hc ++ [n]) =
      countInline hc + (if n.attrOf "src" = none then 1 else 0) := by
  simp only [countInline, List.filter_append, List.length_append]
  congr 1
  by_cases h : n.attrOf "src" = none <;> simp [h]

theorem loadScriptNodes_spec :
    ∀ (scripts : List Html) (reg : List String) (hc : List Html),
    ScriptsInv reg hc →
    ScriptsInv (loadScriptNodes scripts reg hc).1
      (loadScriptNodes scripts reg hc).2 ∧
    (∀ u, u ∈ reg →
      countSrc (loadScriptNodes scripts reg hc).2 u = countSrc hc u) ∧
    (countInline (loadScriptNodes scripts reg hc).2 =
      countInline hc +
        (scripts.filter (fun sc => sc.attrOf "src" = none)).length) := by
  intro scripts
  induction scripts with
  | nil =>
    intro reg hc hinv
    exact ⟨hinv, fun u _ => rfl, by simp [loadScriptNodes]⟩
  | cons sn rest ih =>
    intro reg hc hinv
    unfold loadScriptNodes
    rcases hs : sn.attrOf "src" with _ | src
    · -- inline script: always appended
      have hattr : (Html.elem "script" [("type", "text/javascript")]
          sn.childrenOf).attrOf "src" = none := rfl
      have hinv' : ScriptsInv reg
          (hc ++ [Html.elem "script" [("type", "text/javascript")]
            sn.childrenOf]) := by
        intro u
        rw [countSrc_append]
        simpa [hattr] using hinv u
      obtain ⟨a, b, c⟩ := ih reg _ hinv'
      refine ⟨a, ?_, ?_⟩
      · intro u hu
        rw [b u hu, countSrc_append]
        simp [hattr]
      · rw [c, countInline_append]
        simp [hattr, List.filter_cons, hs]
        omega
    · by_cases hm : reg.contains src = true
      · -- already registered: skipped
        obtain ⟨a, b, c⟩ := ih reg hc hinv
        simp only [hm, if_true]
        refine ⟨a, b, ?_⟩
        rw [c]
        simp [List.filter_cons, hs]
      · -- new external reference: appended and registered
        have hnotin : src ∉ reg := by
          intro hin
          exact hm (by simpa using hin)
        have hattr : (Html.elem "script"
            [("type", "text/javascript"), ("src", src)] []).attrOf "src"
            = some src := rfl
        have hzero : countSrc hc src = 0 := by
          by_contra hnz
          exact hnotin ((hinv src).2 (Nat.one_le_iff_ne_zero.mpr hnz))
        have hinv' : ScriptsInv (reg ++ [src])
            (hc ++ [Html.elem "script"
              [("type", "text/javascript"), ("src", src)] []]) := by
          intro u
          rw [countSrc_append]
          by_cases he : u = src
          · subst he
            simp [hattr, hzero]
          · have hne : ¬((Html.elem "script"
                [("type", "text/javascript"), ("src", src)] []).attrOf "src"
                  = some u) := by
              rw [hattr]
              simp [Ne.symm he]
            obtain ⟨i1, i2⟩ := hinv u
            rw [if_neg hne]
            exact ⟨by simpa using i1,
              fun h1 => List.mem_append_left _ (i2 (by simpa using h1))⟩
        obtain ⟨a, b, c⟩ := ih (reg ++ [src]) _ hinv'
        simp only [hm, Bool.false_eq_true, if_false]
        refine ⟨a, ?_, ?_⟩
        · intro u hu
          have hne : u ≠ src := fun he => hnotin (he ▸ hu)
          rw [b u (List.mem_append_left _ hu), countSrc_append]
          simp only [hattr, Option.some.injEq]
          rw [if_neg (Ne.symm hne)]
          exact Nat.add_zero _
        · rw [c, countInline_append]
          simp [hattr, List.filter_cons, hs]

theorem processMerges_inv :
    ∀ (merges : List (List Html)) (reg : List String) (hc : List Html),
    ScriptsInv reg hc →
    ScriptsInv (processMerges merges (reg, hc)).1
      (processMerges merges (reg, hc)).2 := by
  intro merges
  induction merges with
  | nil => intro reg hc hinv; exact hinv
  | cons m rest ih =>
    intro reg hc hinv
    exact ih _ _ (loadScriptNodes_spec m reg hc hinv).1

/-- C9: processing the script nodes of a merged fragment preserves the
registry invariant (each external src appears at most once among the
appended scripts, and appearing implies registered), never appends a
second element for an already registered src, appends every inline script
of the fragment, and across any sequence of merges a given external src
is appended at most once. -/
theorem scripts_loaded_at_most_once (scripts : List Html) (reg : List String)
    (hc : List Html) (hinv : ScriptsInv reg hc) :
    ScriptsInv (loadScriptNodes scripts reg hc).1
      (loadScriptNodes scripts reg hc).2 ∧
    (∀ u, u ∈ reg →
      countSrc (loadScriptNodes scripts reg hc).2 u = countSrc hc u) ∧
    (countInline (loadScriptNodes scripts reg hc).2 =
      countInline hc +
        (scripts.filter (fun sc => sc.attrOf "src" = none)).length) ∧
    (∀ merges u, countSrc (processMerges merges (reg, hc)).2 u ≤ 1) := by
  obtain ⟨a, b, c⟩ := loadScriptNodes_spec scripts reg hc hinv
  exact ⟨a, b, c, fun merges u => (processMerges_inv merges reg hc hinv u).1⟩

/-- The scripts of the witness: one inline script and the same external
reference twice. -/
def scr0 : List Html :=
  [Html.elem "script" [] [.text "x()"],
   Html.elem "script" [("src", "a.js")] [],
   Html.elem "script" [("src", "a.js")] []]

/-- Witness for C9: from an empty registry the external reference is
appended at most once. -/
theorem scripts_loaded_at_most_once_w :
    countSrc (loadScriptNodes scr0 [] []).2 "a.js" ≤ 1 :=
  ((scripts_loaded_at_most_once scr0 [] []
    (fun u => by simp [countSrc])).1 "a.js").1

end Vik
